import Mathlib

/-!
Verification of the DICOM semantic-extraction and assembly engine of the
mri-reader repository, against its natural-language specification.

The development shallowly embeds the TypeScript decoding modules:

* the generic reader surface consumed by every decoder (spec section 6) is a
  `DataSet` value exposing tag-keyed optional string / integer / uint16 /
  float-string accessors, binary float-array element access, and tag-keyed
  elements whose items carry nested datasets and whose raw byte region backs
  bulk binary data (overlay bit planes);
* `parseDicomFile`, `parseOverlays`, `unpackOverlayBits`, `parseStudyMetadata`,
  `parseSeriesMetadata` and `loadDicomFromFolder` from the study assembler;
* `isSRFile` / `parseSR` and the recursive content-tree decoder;
* `isKOFile` / `parseKO` and its reference resolver;
* `isPRFile` / `parsePR` with VOI LUT, graphic-object, text-object and
  graphic-data decoding;
* the CIRCLE reconstruction of the annotation overlay renderer.

JavaScript-specific behaviour is embedded explicitly: string falsiness
(`undefined` and the empty string are both falsy), `??` versus `||`,
`Array.prototype.sort` as a stable sort (insertion sort), and JS `Map`
insertion order (association list in insertion order).  File reading and
`dicomParser.parseDicom` are external collaborators; a source file is embedded
as its byte length together with the optional dataset the external parser
yields (`none` embeds a thrown decode error).  Unbounded recursion over
datasets (the structured-report content tree) is embedded with explicit fuel;
the exported wrappers supply the dataset size as fuel, which strictly exceeds
any reachable recursion depth, so the embedding agrees with the unbounded
original on every input.
-/

namespace MriReader

set_option maxHeartbeats 1600000
set_option maxRecDepth 16000

/-- A navigable DICOM dataset as produced by the external binary reader:
tag-keyed association lists for each accessor of the reader surface.  The
`elements` entry of a tag holds the sequence items (each an optional nested
dataset, mirroring `item.dataSet` possibly being absent) together with the raw
bytes of the element's bulk data region (the view the source takes at
`dataOffset` with `length` bytes). -/
inductive DataSet : Type where
  | mk (strings : List (String × String))
       (intStrings : List (String × Int))
       (uint16s : List (String × Nat))
       (floatStrings : List (String × Rat))
       (floatArrays : List (String × List Rat))
       (elements : List (String × List (Option DataSet) × List Nat)) : DataSet

/-- Accessor `dataSet.string(tag)`: optional text. -/
def DataSet.str : DataSet → String → Option String
  | .mk s _ _ _ _ _, tag => (s.find? (fun p => p.1 == tag)).map (·.2)

/-- Accessor `dataSet.intString(tag)`: optional integer. -/
def DataSet.intString : DataSet → String → Option Int
  | .mk _ i _ _ _ _, tag => (i.find? (fun p => p.1 == tag)).map (·.2)

/-- Accessor `dataSet.uint16(tag)`: optional unsigned 16-bit integer. -/
def DataSet.uint16 : DataSet → String → Option Nat
  | .mk _ _ u _ _ _, tag => (u.find? (fun p => p.1 == tag)).map (·.2)

/-- Accessor `dataSet.floatString(tag)`: optional float. -/
def DataSet.floatString : DataSet → String → Option Rat
  | .mk _ _ _ f _ _, tag => (f.find? (fun p => p.1 == tag)).map (·.2)

/-- Accessor `dataSet.float(tag, index)`: element access into a binary float
array; `undefined` beyond the array. -/
def DataSet.float : DataSet → String → Nat → Option Rat
  | .mk _ _ _ _ fa _, tag, i =>
    ((fa.find? (fun p => p.1 == tag)).map (·.2)).bind (fun l => l[i]?)

/-- Accessor `dataSet.elements[tag]`: optional element with its sequence items
and raw bulk bytes. -/
def DataSet.elem : DataSet → String → Option (List (Option DataSet) × List Nat)
  | .mk _ _ _ _ _ e, tag => (e.find? (fun p => p.1 == tag)).map (·.2)

mutual

/-- Structural size of a dataset; every dataset nested inside `ds` (at any
depth, through element items) has size strictly smaller than `ds.size`, so
`ds.size` bounds the recursion depth of any content-tree walk from `ds`. -/
def DataSet.size : DataSet → Nat
  | .mk _ _ _ _ _ els => 1 + sizeElems els

/-- Size of an element list (see `DataSet.size`). -/
def sizeElems : List (String × List (Option DataSet) × List Nat) → Nat
  | [] => 0
  | (_, its, _) :: rest => 1 + sizeItems its + sizeElems rest

/-- Size of a sequence-item list (see `DataSet.size`). -/
def sizeItems : List (Option DataSet) → Nat
  | [] => 0
  | none :: rest => 1 + sizeItems rest
  | some ds :: rest => 1 + DataSet.size ds + sizeItems rest

end

/-- JavaScript truthiness of an optional string: `undefined` and the empty
string are falsy, every other string is truthy. -/
def strTruthy : Option String → Bool
  | none => false
  | some s => !(s == "")

/-- JavaScript `a || b` for a string `a` and default `b`: the empty string is
falsy and falls through to the default. -/
def jsOr (a b : String) : String :=
  if a == "" then b else a

/-- JavaScript access `seq?.items?.[0]?.dataSet` on an optional element: the
dataset of the first sequence item, when everything along the path exists. -/
def firstItemDS (e : Option (List (Option DataSet) × List Nat)) : Option DataSet :=
  e.bind fun p => (p.1[0]?).bind id

/-- The external JS `Number(s)` conversion as used on backslash-separated
DICOM numeric pair strings, restricted to integer literals: the empty string
converts to 0, otherwise the integer literal is parsed, `none` embedding NaN.
(The conversion itself is a JavaScript builtin, outside the repository; only
its behaviour on the integer pair strings the source splits is relevant.) -/
def jsNumber (s : String) : Option Int :=
  if s == "" then some 0 else s.toInt?

/-- The `split('\\').map(Number)` idiom of the source, with the guard
`parts.length >= 2 && !parts.some(isNaN)` it is always paired with: yields the
numeric parts when there are at least two and none is NaN. -/
def splitNumericPair (s : String) : Option (List Int) :=
  let parts := (s.splitOn "\x5c").map jsNumber
  if parts.length ≥ 2 ∧ ¬parts.any (·.isNone) then some (parts.map (·.getD 0))
  else none

/-! ## Domain model (src/types.ts) -/

/-- `GraphicOverlay` of types.ts: one unpacked bitmap overlay plane. -/
structure GraphicOverlay where
  group : Nat
  rows : Nat
  columns : Nat
  type : String
  origin : Int × Int
  bitsAllocated : Nat
  data : List Nat
  description : Option String
  label : Option String
deriving DecidableEq

/-- `DicomImage` of types.ts. -/
structure DicomImage where
  sopInstanceUID : String
  seriesInstanceUID : String
  instanceNumber : Int
  filePath : String
  rows : Nat
  columns : Nat
  windowCenter : Option Rat
  windowWidth : Option Rat
  sliceLocation : Option Rat
  sliceThickness : Option Rat
  overlays : Option (List GraphicOverlay)
deriving DecidableEq

/-- `ReportFinding` of types.ts: one node of the structured-report finding
tree.  The `valueType` is the raw string the source stores after its unchecked
cast; `children`, when present, is the list of nested findings. -/
inductive ReportFinding : Type where
  | mk (conceptName : String) (value : String) (valueType : String)
       (unit : Option String) (children : Option (List ReportFinding))
       (referencedImageUID : Option String) : ReportFinding

/-- Projection: concept name of a finding. -/
def ReportFinding.conceptName : ReportFinding → String
  | .mk c _ _ _ _ _ => c

/-- Projection: rendered value of a finding. -/
def ReportFinding.value : ReportFinding → String
  | .mk _ v _ _ _ _ => v

/-- Projection: value type of a finding. -/
def ReportFinding.valueType : ReportFinding → String
  | .mk _ _ t _ _ _ => t

/-- Projection: optional unit of a finding. -/
def ReportFinding.unit : ReportFinding → Option String
  | .mk _ _ _ u _ _ => u

/-- Projection: optional child list of a finding. -/
def ReportFinding.children : ReportFinding → Option (List ReportFinding)
  | .mk _ _ _ _ c _ => c

/-- Projection: optional referenced image of a finding. -/
def ReportFinding.referencedImageUID : ReportFinding → Option String
  | .mk _ _ _ _ _ r => r

/-- `DicomReport` of types.ts. -/
structure DicomReport where
  sopInstanceUID : String
  seriesInstanceUID : String
  contentDate : Option String
  completionFlag : String
  verificationFlag : String
  findings : List ReportFinding

/-- `KeyObjectSelection` of types.ts. -/
structure KeyObjectSelection where
  sopInstanceUID : String
  title : String
  description : Option String
  keyImages : List String
deriving DecidableEq

/-- `GraphicAnnotation` of types.ts. -/
structure GraphicAnnotation where
  graphicType : String
  graphicData : List Rat
  textValue : Option String
deriving DecidableEq

/-- `PresentationState` of types.ts. -/
structure PresentationState where
  sopInstanceUID : String
  referencedImageUIDs : List String
  windowCenter : Option Rat
  windowWidth : Option Rat
  presentationLabel : Option String
  graphicAnnotations : Option (List GraphicAnnotation)
deriving DecidableEq

/-- Study-level metadata as returned by `parseStudyMetadata` (the
study-level fields of `DicomStudy`). -/
structure StudyMeta where
  studyInstanceUID : String
  patientName : String
  patientId : String
  studyDate : String
  studyDescription : String
  modality : String
  institutionName : Option String
  referringPhysician : Option String
deriving DecidableEq

/-- Series-level metadata as returned by `parseSeriesMetadata` (the
series-level fields of `DicomSeries`). -/
structure SeriesMeta where
  seriesInstanceUID : String
  studyInstanceUID : String
  seriesNumber : Int
  seriesDescription : String
  bodyPart : Option String
  modality : String
deriving DecidableEq

/-- `DicomSeries` of types.ts: series metadata plus its owned image list. -/
structure DicomSeries where
  meta : SeriesMeta
  images : List DicomImage
deriving DecidableEq

/-- Series number of a series (reaches through the metadata record). -/
def DicomSeries.seriesNumber (s : DicomSeries) : Int := s.meta.seriesNumber

/-- Series instance UID of a series (reaches through the metadata record). -/
def DicomSeries.seriesInstanceUID (s : DicomSeries) : String :=
  s.meta.seriesInstanceUID

/-- `DicomStudy` of types.ts: study metadata plus the owned collections. -/
structure DicomStudy where
  meta : StudyMeta
  series : List DicomSeries
  reports : List DicomReport
  keyObjectSelections : List KeyObjectSelection
  presentationStates : List PresentationState

/-! ## Overlay bitmap decoder (parseOverlays / unpackOverlayBits) -/

/-- `unpackOverlayBits(packed, numPixels)`: expand 1-bit packed overlay data
to one byte per pixel.  The output buffer starts zeroed; position `i` is
written with bit `i mod 8` of packed byte `i / 8` only when that byte index is
inside the packed buffer. -/
def unpackOverlayBits (packed : List Nat) (numPixels : Nat) : List Nat :=
  (List.range numPixels).map fun i =>
    let byteIndex := i / 8
    let bitIndex := i % 8
    if byteIndex < packed.length then (packed.getD byteIndex 0 >>> bitIndex) &&& 1
    else 0

/-- Hexadecimal group string `group.toString(16).padStart(4, '0')`. -/
def hexGroup (g : Nat) : String :=
  let s := String.mk (Nat.toDigits 16 g)
  String.mk (List.replicate (4 - s.length) '0') ++ s

/-- One iteration of the `parseOverlays` loop: decode the overlay plane of a
single group slot, if present. -/
def parseOverlayGroup (ds : DataSet) (group : Nat) : Option GraphicOverlay :=
  let pre := hexGroup group
  match ds.uint16 ("x" ++ pre ++ "0010") with
  | none => none
  | some rows =>
    if rows == 0 then none else
    match ds.uint16 ("x" ++ pre ++ "0011") with
    | none => none
    | some columns =>
      if columns == 0 then none else
      let type := (ds.str ("x" ++ pre ++ "0040")).getD "G"
      let origin : Int × Int :=
        match ds.str ("x" ++ pre ++ "0050") with
        | none => (1, 1)
        | some originStr =>
          if originStr == "" then (1, 1)
          else
            match splitNumericPair originStr with
            | some parts => (parts.getD 0 0, parts.getD 1 0)
            | none => (1, 1)
      match ds.elem ("x" ++ pre ++ "3000") with
      | none => none
      | some (_, raw) =>
        some { group := group
               rows := rows
               columns := columns
               type := type
               origin := origin
               bitsAllocated := 1
               data := unpackOverlayBits raw (rows * columns)
               description := ds.str ("x" ++ pre ++ "0022")
               label := ds.str ("x" ++ pre ++ "1500") }

/-- `parseOverlays(dataSet)`: probe the sixteen legal overlay group slots
`0x6000, 0x6002, ..., 0x601E` in order and collect the decodable planes. -/
def parseOverlays (ds : DataSet) : List GraphicOverlay :=
  ((List.range 16).map (fun k => 0x6000 + 2 * k)).filterMap (parseOverlayGroup ds)

/-- Re-packing of unpacked overlay bytes, as the specification's round-trip
property describes it: bit `i mod 8` of output byte `i / 8` is set from
unpacked byte `i`, producing one output byte per eight (partial trailing
group included) input bytes. -/
def packOverlayBits (bits : List Nat) : List Nat :=
  (List.range ((bits.length + 7) / 8)).map fun j =>
    ((List.range 8).map fun k => bits.getD (8 * j + k) 0 * 2 ^ k).sum

/-! ## Structured report decoder (src/lib/dicom-sr.ts) -/

/-- The eighteen structured-report SOP class UIDs of `SR_SOP_CLASSES`. -/
def SR_SOP_CLASSES : List String :=
  [ "1.2.840.10008.5.1.4.1.1.88.11", "1.2.840.10008.5.1.4.1.1.88.22",
    "1.2.840.10008.5.1.4.1.1.88.33", "1.2.840.10008.5.1.4.1.1.88.34",
    "1.2.840.10008.5.1.4.1.1.88.35", "1.2.840.10008.5.1.4.1.1.88.40",
    "1.2.840.10008.5.1.4.1.1.88.50", "1.2.840.10008.5.1.4.1.1.88.65",
    "1.2.840.10008.5.1.4.1.1.88.67", "1.2.840.10008.5.1.4.1.1.88.68",
    "1.2.840.10008.5.1.4.1.1.88.69", "1.2.840.10008.5.1.4.1.1.88.70",
    "1.2.840.10008.5.1.4.1.1.88.71", "1.2.840.10008.5.1.4.1.1.88.72",
    "1.2.840.10008.5.1.4.1.1.88.73", "1.2.840.10008.5.1.4.1.1.88.74",
    "1.2.840.10008.5.1.4.1.1.88.75", "1.2.840.10008.5.1.4.1.1.88.76" ]

/-- `isSRFile(dataSet)`: the SOP class UID is one of the SR classes. -/
def isSRFile (ds : DataSet) : Bool :=
  match ds.str "x00080016" with
  | none => false
  | some u => SR_SOP_CLASSES.contains u

/-- `formatDicomDate(dateStr)` of dicom-utils: YYYYMMDD to YYYY-MM-DD, with a
fallback for absent or mis-sized input. -/
def formatDicomDate (dateStr : Option String) : String :=
  match dateStr with
  | none => "Unknown Date"
  | some s =>
    if s == "" ∨ s.length ≠ 8 then "Unknown Date"
    else (s.take 4) ++ "-" ++ ((s.drop 4).take 2) ++ "-" ++ ((s.drop 6).take 2)

/-- `getConceptName(dataSet)`: code meaning of the first item of the concept
name code sequence, or the empty string. -/
def getConceptName (ds : DataSet) : String :=
  match firstItemDS (ds.elem "x0040a043") with
  | none => ""
  | some cn => (cn.str "x00080104").getD ""

/-- `parseContentItem(itemDataSet)`, fuel-indexed.  The fuel only bounds the
recursion into nested content sequences; `parseContentItem` below supplies a
fuel that always suffices, so the equations here are those of the unbounded
source recursion.  An absent item dataset or a falsy value type yields no
finding; otherwise the value is computed per value type, and the children are
the surviving recursive decodes of the nested content sequence, cleared to
absent when none survive. -/
def parseContentItemF : Nat → Option DataSet → Option ReportFinding
  | _, none => none
  | 0, some _ => none
  | fuel + 1, some ds =>
    let valueTypeOpt := ds.str "x0040a040"
    if !strTruthy valueTypeOpt then none
    else
      let valueType := valueTypeOpt.getD ""
      let conceptName := getConceptName ds
      let valueUnitRef : String × Option String × Option String :=
        if valueType == "TEXT" then ((ds.str "x0040a160").getD "", none, none)
        else if valueType == "NUM" then
          match firstItemDS (ds.elem "x0040a300") with
          | none => ("", none, none)
          | some mv =>
            ((mv.floatString "x0040a30a").elim "" toString,
             (firstItemDS (mv.elem "x004008ea")).bind (·.str "x00080104"),
             none)
        else if valueType == "CODE" then
          match firstItemDS (ds.elem "x0040a168") with
          | none => ("", none, none)
          | some cd => ((cd.str "x00080104").getD "", none, none)
        else if valueType == "IMAGE" then
          match firstItemDS (ds.elem "x00081199") with
          | none => ("", none, none)
          | some ref =>
            (jsOr conceptName "Image Reference", none, ref.str "x00081155")
        else if valueType == "CONTAINER" then (jsOr conceptName "Container", none, none)
        else (jsOr conceptName valueType, none, none)
      let children : Option (List ReportFinding) :=
        match ds.elem "x0040a730" with
        | none => none
        | some (items, _) =>
          let cs := items.filterMap (fun it => parseContentItemF fuel it)
          if cs.isEmpty then none else some cs
      some (.mk (jsOr conceptName "Finding") valueUnitRef.1 valueType
              valueUnitRef.2.1 children valueUnitRef.2.2)

/-- `parseContentItem(itemDataSet)`: the fuel-free wrapper; the dataset's own
size strictly bounds every recursion depth reachable from it. -/
def parseContentItem (ods : Option DataSet) : Option ReportFinding :=
  parseContentItemF (match ods with | none => 1 | some ds => ds.size) ods

/-- `parseContentSequence(dataSet)`: decode the items of the content sequence,
keeping the survivors in order. -/
def parseContentSequence (ds : DataSet) : List ReportFinding :=
  match ds.elem "x0040a730" with
  | none => []
  | some (items, _) => items.filterMap (fun it => parseContentItemF ds.size it)

/-- `parseSR(dataSet, filePath)`: decode a structured report; both UIDs are
required (falsy values reject the file). -/
def parseSR (ds : DataSet) (_filePath : String) : Option DicomReport :=
  let sopInstanceUID := ds.str "x00080018"
  let seriesInstanceUID := ds.str "x0020000e"
  if !strTruthy sopInstanceUID ∨ !strTruthy seriesInstanceUID then none
  else
    some { sopInstanceUID := sopInstanceUID.getD ""
           seriesInstanceUID := seriesInstanceUID.getD ""
           contentDate :=
             match ds.str "x00080023" with
             | none => none
             | some d => if d == "" then none else some (formatDicomDate (some d))
           completionFlag := (ds.str "x0040a491").getD "COMPLETE"
           verificationFlag := (ds.str "x0040a493").getD "UNVERIFIED"
           findings := parseContentSequence ds }

/-! ## Key object selection decoder (src/lib/dicom-ko.ts) -/

/-- `KO_SOP_CLASS`: the key object selection SOP class UID. -/
def KO_SOP_CLASS : String := "1.2.840.10008.5.1.4.1.1.88.59"

/-- `isKOFile(dataSet)`. -/
def isKOFile (ds : DataSet) : Bool :=
  ds.str "x00080016" == some KO_SOP_CLASS

/-- `getKOTitle(dataSet)`: code meaning of the first concept-name item, or the
empty string. -/
def getKOTitle (ds : DataSet) : String :=
  match firstItemDS (ds.elem "x0040a043") with
  | none => ""
  | some cn => (cn.str "x00080104").getD ""

/-- `getKODescription(dataSet)`: the first truthy TEXT value among the
top-level content items. -/
def getKODescription (ds : DataSet) : Option String :=
  match ds.elem "x0040a730" with
  | none => none
  | some (items, _) =>
    items.findSome? fun it =>
      match it with
      | none => none
      | some itemDS =>
        if itemDS.str "x0040a040" == some "TEXT" then
          match itemDS.str "x0040a160" with
          | none => none
          | some t => if t == "" then none else some t
        else none

/-- Referenced SOP instance UID of an IMAGE content item: the truthy
`x00081155` of the first referenced-SOP item (`if (refUID) push`). -/
def imageItemRefUID (itemDS : DataSet) : Option String :=
  if itemDS.str "x0040a040" == some "IMAGE" then
    match firstItemDS (itemDS.elem "x00081199") with
    | none => none
    | some ref =>
      match ref.str "x00081155" with
      | none => none
      | some uid => if uid == "" then none else some uid
  else none

namespace KO

/-- `parseReferencedImages(dataSet)` of dicom-ko: walk the top-level content
items, collecting each IMAGE item's referenced UID, and additionally walk each
top-level item's own nested content sequence one level down, collecting its
IMAGE items' referenced UIDs. -/
def parseReferencedImages (ds : DataSet) : List String :=
  match ds.elem "x0040a730" with
  | none => []
  | some (items, _) =>
    items.flatMap fun it =>
      match it with
      | none => []
      | some itemDS =>
        ((imageItemRefUID itemDS).elim [] ([·])) ++
          match itemDS.elem "x0040a730" with
          | none => []
          | some (nested, _) =>
            nested.flatMap fun nit =>
              match nit with
              | none => []
              | some nestedDS => (imageItemRefUID nestedDS).elim [] ([·])

end KO

/-- `parseKO(dataSet, filePath)`: decode a key object selection; requires a
truthy SOP instance UID and at least one resolved image reference. -/
def parseKO (ds : DataSet) (_filePath : String) : Option KeyObjectSelection :=
  let sopInstanceUID := ds.str "x00080018"
  if !strTruthy sopInstanceUID then none
  else
    let keyImages := KO.parseReferencedImages ds
    if keyImages.isEmpty then none
    else
      some { sopInstanceUID := sopInstanceUID.getD ""
             title := jsOr (getKOTitle ds) "Key Images"
             description := getKODescription ds
             keyImages := keyImages }

/-! ## Presentation state decoder (src/lib/dicom-pr.ts) -/

/-- The twelve presentation-state SOP class UIDs of `PR_SOP_CLASSES`. -/
def PR_SOP_CLASSES : List String :=
  [ "1.2.840.10008.5.1.4.1.1.11.1", "1.2.840.10008.5.1.4.1.1.11.2",
    "1.2.840.10008.5.1.4.1.1.11.3", "1.2.840.10008.5.1.4.1.1.11.4",
    "1.2.840.10008.5.1.4.1.1.11.5", "1.2.840.10008.5.1.4.1.1.11.6",
    "1.2.840.10008.5.1.4.1.1.11.7", "1.2.840.10008.5.1.4.1.1.11.8",
    "1.2.840.10008.5.1.4.1.1.11.9", "1.2.840.10008.5.1.4.1.1.11.10",
    "1.2.840.10008.5.1.4.1.1.11.11", "1.2.840.10008.5.1.4.1.1.11.12" ]

/-- `isPRFile(dataSet)`. -/
def isPRFile (ds : DataSet) : Bool :=
  match ds.str "x00080016" with
  | none => false
  | some u => PR_SOP_CLASSES.contains u

namespace PR

/-- `parseReferencedImages(dataSet)` of dicom-pr: walk the referenced series
sequence, then each series item's referenced image sequence, collecting every
truthy referenced SOP instance UID in order. -/
def parseReferencedImages (ds : DataSet) : List String :=
  match ds.elem "x00081115" with
  | none => []
  | some (seriesItems, _) =>
    seriesItems.flatMap fun sit =>
      match sit with
      | none => []
      | some seriesDS =>
        match seriesDS.elem "x00081140" with
        | none => []
        | some (imageItems, _) =>
          imageItems.flatMap fun iit =>
            match iit with
            | none => []
            | some imageDS =>
              match imageDS.str "x00081155" with
              | none => []
              | some uid => if uid == "" then [] else [uid]

end PR

/-- `parseVOILUT(dataSet)`: window center/width read from the first item of
the softcopy VOI LUT sequence, both absent when the sequence is absent. -/
def parseVOILUT (ds : DataSet) : Option Rat × Option Rat :=
  match firstItemDS (ds.elem "x00283110") with
  | none => (none, none)
  | some voiDS => (voiDS.floatString "x00281050", voiDS.floatString "x00281051")

/-- `parseGraphicData(objectDS)`: random-access read of `numPoints * 2`
consecutive binary floats from the graphic data element, keeping only the
indices that decode; absent element or a zero point count yields nothing. -/
def parseGraphicData (objectDS : DataSet) : List Rat :=
  match objectDS.elem "x00700022" with
  | none => []
  | some _ =>
    let numPoints := (objectDS.uint16 "x00700021").getD 0
    if numPoints == 0 then []
    else (List.range (numPoints * 2)).filterMap fun i => objectDS.float "x00700022" i

/-- `parseGraphicObject(objectDS)`: map the DICOM graphic type (POLYLINE and
INTERPOLATED collapse to POLYLINE, anything unrecognized falls back to
POLYLINE), then read the coordinates; empty coordinates reject the object. -/
def parseGraphicObject (objectDS : DataSet) : Option GraphicAnnotation :=
  let graphicType := objectDS.str "x00700023"
  if !strTruthy graphicType then none
  else
    let t := graphicType.getD ""
    let mappedType :=
      if t == "POINT" then "POINT"
      else if t == "POLYLINE" ∨ t == "INTERPOLATED" then "POLYLINE"
      else if t == "CIRCLE" then "CIRCLE"
      else if t == "ELLIPSE" then "ELLIPSE"
      else "POLYLINE"
    let graphicData := parseGraphicData objectDS
    if graphicData.isEmpty then none
    else some { graphicType := mappedType, graphicData := graphicData, textValue := none }

/-- `parseTextObject(textDS)`: require a truthy text value; position from the
anchor point when it parses, else the bounding-box corner, else (0,0). -/
def parseTextObject (textDS : DataSet) : Option GraphicAnnotation :=
  let textValue := textDS.str "x00700006"
  if !strTruthy textValue then none
  else
    let fromAnchor : List Rat :=
      match textDS.str "x00700014" with
      | none => []
      | some s =>
        if s == "" then []
        else match splitNumericPair s with
             | some parts => parts.map (fun n => (n : Rat))
             | none => []
    let graphicData : List Rat :=
      if fromAnchor.isEmpty then
        match textDS.str "x00700010" with
        | none => [0, 0]
        | some s =>
          if s == "" then [0, 0]
          else match splitNumericPair s with
               | some parts => parts.map (fun n => (n : Rat))
               | none => [0, 0]
      else fromAnchor
    some { graphicType := "TEXT", graphicData := graphicData, textValue := textValue }

/-- `parseGraphicAnnotations(dataSet)`: for each annotation group, decode its
graphic objects then its text objects, in order. -/
def parseGraphicAnnotations (ds : DataSet) : List GraphicAnnotation :=
  match ds.elem "x00700001" with
  | none => []
  | some (annotationItems, _) =>
    annotationItems.flatMap fun ait =>
      match ait with
      | none => []
      | some annotationDS =>
        (match annotationDS.elem "x00700009" with
         | none => []
         | some (objectItems, _) =>
           objectItems.flatMap fun oit =>
             match oit with
             | none => []
             | some objectDS => (parseGraphicObject objectDS).elim [] ([·])) ++
        (match annotationDS.elem "x00700008" with
         | none => []
         | some (textItems, _) =>
           textItems.flatMap fun tit =>
             match tit with
             | none => []
             | some textDS => (parseTextObject textDS).elim [] ([·]))

/-- `parsePR(dataSet, filePath)`: decode a presentation state; requires a
truthy SOP instance UID and at least one referenced image. -/
def parsePR (ds : DataSet) (_filePath : String) : Option PresentationState :=
  let sopInstanceUID := ds.str "x00080018"
  if !strTruthy sopInstanceUID then none
  else
    let referencedImageUIDs := PR.parseReferencedImages ds
    if referencedImageUIDs.isEmpty then none
    else
      let voi := parseVOILUT ds
      let graphicAnnotations := parseGraphicAnnotations ds
      some { sopInstanceUID := sopInstanceUID.getD ""
             referencedImageUIDs := referencedImageUIDs
             windowCenter := voi.1
             windowWidth := voi.2
             presentationLabel := ds.str "x00700080"
             graphicAnnotations :=
               if graphicAnnotations.isEmpty then none else some graphicAnnotations }

/-! ## Study assembler (src/lib/dicom-loader.ts) -/

/-- A source file as the assembler sees it: its path, the byte length the
size check inspects, and the dataset the external `dicomParser.parseDicom`
yields for its bytes — `none` embedding a read or decode exception (caught at
the file boundary by every caller). -/
structure DicomFile where
  path : String
  byteLength : Nat
  parsed : Option DataSet

/-- `DICOM_SECURITY.maxFileSize`: 500MB. -/
def maxFileSize : Nat := 500 * 1024 * 1024

/-- `ParseResult`: the tagged outcome of parsing a single file. -/
inductive ParseResult : Type where
  | image (data : DicomImage)
  | report (data : DicomReport)
  | keyObject (data : KeyObjectSelection)
  | presentationState (data : PresentationState)

/-- `parseDicomFile(filePath)`: size check, decode, classify (SR before KO
before PR, each by SOP class; otherwise an image exactly when pixel data is
present), and extract; any per-file failure yields `none` (the catch-all and
each explicit `return null`). -/
def parseDicomFile (f : DicomFile) : Option ParseResult :=
  if f.byteLength > maxFileSize then none
  else
    match f.parsed with
    | none => none
    | some ds =>
      if isSRFile ds then (parseSR ds f.path).map .report
      else if isKOFile ds then (parseKO ds f.path).map .keyObject
      else if isPRFile ds then (parsePR ds f.path).map .presentationState
      else
        match ds.elem "x7fe00010" with
        | none => none
        | some _ =>
          let sopInstanceUID := ds.str "x00080018"
          let seriesInstanceUID := ds.str "x0020000e"
          if !strTruthy sopInstanceUID ∨ !strTruthy seriesInstanceUID then none
          else
            let overlays := parseOverlays ds
            some (.image
              { sopInstanceUID := sopInstanceUID.getD ""
                seriesInstanceUID := seriesInstanceUID.getD ""
                instanceNumber := (ds.intString "x00200013").getD 0
                filePath := f.path
                rows := (ds.uint16 "x00280010").getD 0
                columns := (ds.uint16 "x00280011").getD 0
                windowCenter := ds.floatString "x00281050"
                windowWidth := ds.floatString "x00281051"
                sliceLocation := ds.floatString "x00201041"
                sliceThickness := ds.floatString "x00180050"
                overlays := if overlays.isEmpty then none else some overlays })

/-- `parseStudyMetadata(filePath)`: study-level fields from one file; rejected
when the study instance UID is falsy (no size check on this path). -/
def parseStudyMetadata (f : DicomFile) : Option StudyMeta :=
  match f.parsed with
  | none => none
  | some ds =>
    let studyInstanceUID := ds.str "x0020000d"
    if !strTruthy studyInstanceUID then none
    else
      some { studyInstanceUID := studyInstanceUID.getD ""
             patientName := (((ds.str "x00100010").getD "Unknown").replace "^" " ").trim
             patientId := (ds.str "x00100020").getD ""
             studyDate := formatDicomDate (ds.str "x00080020")
             studyDescription := (ds.str "x00081030").getD ""
             modality := (ds.str "x00080060").getD ""
             institutionName := ds.str "x00080080"
             referringPhysician := ds.str "x00080090" }

/-- `parseSeriesMetadata(filePath)`: series-level fields from one file;
rejected when either the series or the study instance UID is falsy. -/
def parseSeriesMetadata (f : DicomFile) : Option SeriesMeta :=
  match f.parsed with
  | none => none
  | some ds =>
    let seriesInstanceUID := ds.str "x0020000e"
    let studyInstanceUID := ds.str "x0020000d"
    if !strTruthy seriesInstanceUID ∨ !strTruthy studyInstanceUID then none
    else
      some { seriesInstanceUID := seriesInstanceUID.getD ""
             studyInstanceUID := studyInstanceUID.getD ""
             seriesNumber := (ds.intString "x00200011").getD 0
             seriesDescription := (ds.str "x0008103e").getD ""
             bodyPart := ds.str "x00180015"
             modality := (ds.str "x00080060").getD "" }

/-- The accumulators of the ingestion loop of `loadDicomFromFolder`: the four
object collections plus the lazily materialized series map (a JS `Map`,
embedded as an association list in insertion order with unique keys). -/
structure Accum where
  images : List DicomImage
  reports : List DicomReport
  keyObjectSelections : List KeyObjectSelection
  presentationStates : List PresentationState
  seriesMap : List (String × DicomSeries)

/-- The empty accumulators the ingestion loop starts from. -/
def emptyAccum : Accum :=
  { images := [], reports := [], keyObjectSelections := [],
    presentationStates := [], seriesMap := [] }

/-- One iteration of the ingestion loop: parse the file, skip it entirely on
failure, otherwise fold the result into the accumulators; the first image of
a not-yet-seen series lazily materializes that series from the same file's
series metadata (the series is simply not created when that metadata is
rejected). -/
def ingestStep (acc : Accum) (f : DicomFile) : Accum :=
  match parseDicomFile f with
  | none => acc
  | some (.image image) =>
    let acc1 := { acc with images := acc.images ++ [image] }
    if acc1.seriesMap.any (·.1 == image.seriesInstanceUID) then acc1
    else
      match parseSeriesMetadata f with
      | none => acc1
      | some seriesMeta =>
        { acc1 with
          seriesMap := acc1.seriesMap ++
            [(image.seriesInstanceUID, { meta := seriesMeta, images := [] })] }
  | some (.report r) => { acc with reports := acc.reports ++ [r] }
  | some (.keyObject k) => { acc with keyObjectSelections := acc.keyObjectSelections ++ [k] }
  | some (.presentationState p) =>
    { acc with presentationStates := acc.presentationStates ++ [p] }

/-- The full ingestion loop over the file list. -/
def ingest (files : List DicomFile) : Accum :=
  files.foldl ingestStep emptyAccum

/-- The organize step: append every accumulated image to the entry of the
series map holding its series instance UID, dropping it silently when no such
entry exists. -/
def organizeImages (m : List (String × DicomSeries)) (images : List DicomImage) :
    List (String × DicomSeries) :=
  images.foldl
    (fun m image =>
      m.map fun e =>
        if e.1 == image.seriesInstanceUID then
          (e.1, { e.2 with images := e.2.images ++ [image] })
        else e)
    m

/-- The first terminal sort pass: sort each series' images by instance
number.  JavaScript's `Array.prototype.sort` is a stable sort; insertion sort
realizes the same function. -/
def sortImagesPass (m : List (String × DicomSeries)) : List (String × DicomSeries) :=
  m.map fun e =>
    (e.1, { e.2 with
            images := List.insertionSort
              (fun a b => a.instanceNumber ≤ b.instanceNumber) e.2.images })

/-- The second terminal sort pass: sort the series list by series number. -/
def sortSeriesPass (l : List DicomSeries) : List DicomSeries :=
  List.insertionSort (fun a b => a.seriesNumber ≤ b.seriesNumber) l

/-- `loadDicomFromFolder(filePaths, onProgress)`: the whole assembly
operation.  Progress reporting is a one-way notification sink and is not
modelled.  The study header is scanned from at most the first ten files
(first success wins); every file is then ingested exactly once; the two
terminal sort passes run; zero series yield the empty outcome `none`. -/
def loadDicomFromFolder (filePaths : List DicomFile) : Option DicomStudy :=
  if filePaths.isEmpty then none
  else
    match (filePaths.take 10).findSome? parseStudyMetadata with
    | none => none
    | some studyMetadata =>
      let acc := ingest filePaths
      let organized := organizeImages acc.seriesMap acc.images
      let sortedWithin := sortImagesPass organized
      let sortedSeries := sortSeriesPass (sortedWithin.map (·.2))
      if sortedSeries.isEmpty then none
      else
        some { meta := studyMetadata
               series := sortedSeries
               reports := acc.reports
               keyObjectSelections := acc.keyObjectSelections
               presentationStates := acc.presentationStates }

/-! ## Annotation overlay renderer (src/components/AnnotationOverlay.tsx) -/

/-- The circle the renderer reconstructs from CIRCLE graphic data. -/
structure CircleShape where
  cx : Rat
  cy : Rat
  r : ℝ

/-- The CIRCLE branch of `AnnotationShape`: fewer than four numbers render
nothing; otherwise the first two numbers are the center and the radius is
`Math.sqrt((px - cx) ** 2 + (py - cy) ** 2)` for the next two. -/
noncomputable def circleShape (graphicData : List Rat) : Option CircleShape :=
  if graphicData.length < 4 then none
  else
    let cx := graphicData.getD 0 0
    let cy := graphicData.getD 1 0
    let px := graphicData.getD 2 0
    let py := graphicData.getD 3 0
    some { cx := cx, cy := cy,
           r := Real.sqrt (((px : ℝ) - (cx : ℝ)) ^ 2 + ((py : ℝ) - (cy : ℝ)) ^ 2) }

/-! ## Specification-side companion definitions

Definitions in this section follow the specification's words, not the source;
they exist to be compared against the source-derived definitions above. -/

/-- Specification-side reference collector for key object selections,
fuel-indexed: recurse into the report-style content sequence and collect every
IMAGE-typed item's referenced UID, at any nesting depth, in encounter order.
The fuel only bounds the recursion depth; `specCollectIMAGELeaves` supplies a
fuel exceeding every reachable depth. -/
def specCollectIMAGELeavesF : Nat → DataSet → List String
  | 0, _ => []
  | fuel + 1, ds =>
    match ds.elem "x0040a730" with
    | none => []
    | some (items, _) =>
      items.flatMap fun it =>
        match it with
        | none => []
        | some itemDS =>
          ((imageItemRefUID itemDS).elim [] ([·])) ++ specCollectIMAGELeavesF fuel itemDS

/-- Specification-side reference collector for key object selections: every
IMAGE-typed item at any nesting depth, in encounter order. -/
def specCollectIMAGELeaves (ds : DataSet) : List String :=
  specCollectIMAGELeavesF ds.size ds

/-- A dataset whose report-style content nests at most two levels: no item of
an item of the top-level content sequence carries a further content
sequence. -/
def nestingAtMostTwo (ds : DataSet) : Bool :=
  match ds.elem "x0040a730" with
  | none => true
  | some (items, _) =>
    items.all fun it =>
      match it with
      | none => true
      | some itemDS =>
        match itemDS.elem "x0040a730" with
        | none => true
        | some (nested, _) =>
          nested.all fun nit =>
            match nit with
            | none => true
            | some nestedDS => (nestedDS.elem "x0040a730").isNone

/-- The specification's invariant on finding trees: at every node the child
list is either absent or non-empty, never an empty list. -/
inductive GoodFinding : ReportFinding → Prop where
  | intro (cn v vt : String) (u : Option String) (cs : Option (List ReportFinding))
      (r : Option String)
      (hne : cs ≠ some [])
      (hrec : ∀ l, cs = some l → ∀ c ∈ l, GoodFinding c) :
      GoodFinding (.mk cn v vt u cs r)

/-- Sorting by series number is transitive. -/
instance : IsTrans DicomSeries (fun a b => a.seriesNumber ≤ b.seriesNumber) :=
  ⟨fun _ _ _ h1 h2 => le_trans h1 h2⟩

/-- Sorting by series number is total. -/
instance : IsTotal DicomSeries (fun a b => a.seriesNumber ≤ b.seriesNumber) :=
  ⟨fun _ _ => le_total _ _⟩

/-- Sorting by instance number is transitive. -/
instance : IsTrans DicomImage (fun a b => a.instanceNumber ≤ b.instanceNumber) :=
  ⟨fun _ _ _ h1 h2 => le_trans h1 h2⟩

/-- Sorting by instance number is total. -/
instance : IsTotal DicomImage (fun a b => a.instanceNumber ≤ b.instanceNumber) :=
  ⟨fun _ _ => le_total _ _⟩

/-! ## Concrete witness fixtures -/

/-- A well-formed image dataset: study, series and SOP UIDs, pixel data,
instance and series numbers. -/
def dsImage1 : DataSet := .mk
  [("x00080018", "SOP1"), ("x0020000e", "SER1"), ("x0020000d", "STU1"),
   ("x00080020", "20240102"), ("x00100010", "DOE^JOHN"), ("x00080060", "MR")]
  [("x00200013", 1), ("x00200011", 5)]
  [("x00280010", 2), ("x00280011", 2)]
  [] []
  [("x7fe00010", ([], [0, 0, 0, 0]))]

/-- A loadable file carrying `dsImage1`. -/
def imageFile1 : DicomFile := ⟨"/load/img1.dcm", 1000, some dsImage1⟩

/-- A file whose bytes the external decoder rejects. -/
def badFile : DicomFile := ⟨"/load/bad.dcm", 10, none⟩

/-- Placeholder study metadata for `Option.getD`. -/
def emptyStudyMeta : StudyMeta := ⟨"", "", "", "", "", "", none, none⟩

/-- Placeholder study for `Option.getD`. -/
def emptyStudy : DicomStudy := ⟨emptyStudyMeta, [], [], [], []⟩

/-- Placeholder series for `Option.getD`. -/
def emptySeries : DicomSeries := ⟨⟨"", "", 0, "", none, ""⟩, []⟩

/-- Placeholder finding for `Option.getD`. -/
def emptyFinding : ReportFinding := .mk "" "" "" none none none

/-- Placeholder key object selection for `Option.getD`. -/
def emptyKO : KeyObjectSelection := ⟨"", "", none, []⟩

/-- Placeholder image for `Option.getD`. -/
def emptyImage : DicomImage :=
  ⟨"", "", 0, "", 0, 0, none, none, none, none, none⟩

/-- An image dataset carrying one overlay plane in group 0x6000 with rows 2,
columns 4 and packed byte 0b00001011. -/
def overlayDS : DataSet := .mk [] []
  [("x60000010", 2), ("x60000011", 4)] [] []
  [("x60003000", ([], [11])), ("x7fe00010", ([], []))]

/-- A referenced-SOP item naming "SOPX". -/
def koRef1 : DataSet := .mk [("x00081155", "SOPX")] [] [] [] [] []

/-- A top-level IMAGE content item referencing "SOPX". -/
def koItem1 : DataSet := .mk [("x0040a040", "IMAGE")] [] [] [] []
  [("x00081199", ([some koRef1], []))]

/-- A key object selection dataset with one top-level IMAGE reference. -/
def dsKO1 : DataSet := .mk
  [("x00080016", KO_SOP_CLASS), ("x00080018", "KOSOP1")]
  [] [] [] []
  [("x0040a730", ([some koItem1], []))]

/-- A loadable file carrying `dsKO1`. -/
def koFile1 : DicomFile := ⟨"/load/ko1.dcm", 400, some dsKO1⟩

/-- A referenced-SOP item naming "DEEP1". -/
def c4Ref : DataSet := .mk [("x00081155", "DEEP1")] [] [] [] [] []

/-- An IMAGE content item referencing "DEEP1", with no nested content. -/
def c4Leaf : DataSet := .mk [("x0040a040", "IMAGE")] [] [] [] []
  [("x00081199", ([some c4Ref], []))]

/-- A CONTAINER item holding `c4Leaf` (nesting level two). -/
def c4Mid : DataSet := .mk [("x0040a040", "CONTAINER")] [] [] [] []
  [("x0040a730", ([some c4Leaf], []))]

/-- A CONTAINER item holding `c4Mid`, so its IMAGE leaf sits at depth
three. -/
def c4Top : DataSet := .mk [("x0040a040", "CONTAINER")] [] [] [] []
  [("x0040a730", ([some c4Mid], []))]

/-- A key-object content tree whose only IMAGE item sits at depth three. -/
def c4DeepDS : DataSet := .mk [] [] [] [] [] [("x0040a730", ([some c4Top], []))]

/-- A full key object selection dataset whose only IMAGE reference sits at
depth three of the content tree. -/
def c4DeepKO : DataSet := .mk
  [("x00080016", KO_SOP_CLASS), ("x00080018", "KODEEP")]
  [] [] [] []
  [("x0040a730", ([some c4Top], []))]

/-- A key-object content tree whose IMAGE item sits at depth two (one level
of nesting). -/
def c4TwoLevelDS : DataSet := .mk [] [] [] [] [] [("x0040a730", ([some c4Mid], []))]

/-- A content item with no value type: its decode fails. -/
def c5Bad : DataSet := .mk [] [] [] [] [] []

/-- A CONTAINER content item whose only child fails to decode. -/
def c5Container : DataSet := .mk [("x0040a040", "CONTAINER")] [] [] [] []
  [("x0040a730", ([some c5Bad], []))]

/-- A CIRCLE graphic object with graphic data (10,10),(13,10): two points,
four binary floats. -/
def circleObjDS : DataSet := .mk
  [("x00700023", "CIRCLE")] []
  [("x00700021", 2)] []
  [("x00700022", [10, 10, 13, 10])]
  [("x00700022", ([], []))]

/-! ## General lemmas -/

/-- Fold invariant principle for the ingestion and organize loops. -/
theorem foldl_inv {β α : Type} {P : β → Prop} (step : β → α → β) (l : List α) (init : β)
    (h0 : P init) (hstep : ∀ acc a, a ∈ l → P acc → P (step acc a)) :
    P (l.foldl step init) := by
  induction l generalizing init with
  | nil => exact h0
  | cons hd tl ih =>
    exact ih (step init hd) (hstep init hd (List.mem_cons_self hd tl) h0)
      (fun acc a ha hp => hstep acc a (List.mem_cons_of_mem hd ha) hp)

/-- Pointwise congruence for `List.flatMap`. -/
theorem flatMap_congr_mem {α β : Type} (l : List α) (f g : α → List β)
    (h : ∀ x ∈ l, f x = g x) : l.flatMap f = l.flatMap g := by
  induction l with
  | nil => rfl
  | cons hd tl ih =>
    simp only [List.flatMap_cons, h hd (List.mem_cons_self hd tl)]
    rw [ih fun x hx => h x (List.mem_cons_of_mem hd hx)]

/-- A dataset stored in a sequence-item list contributes to its size. -/
theorem sizeItems_le (its : List (Option DataSet)) (d : DataSet) (h : some d ∈ its) :
    1 + d.size ≤ sizeItems its := by
  induction its with
  | nil => simp at h
  | cons hd tl ih =>
    rcases List.mem_cons.mp h with heq | hmem
    · rw [← heq]
      simp [sizeItems]
    · have := ih hmem
      cases hd with
      | none => simp [sizeItems]; omega
      | some d2 => simp [sizeItems]; omega

/-- An element stored in an element list contributes to its size. -/
theorem sizeElems_le (els : List (String × List (Option DataSet) × List Nat))
    (p : String × List (Option DataSet) × List Nat) (h : p ∈ els) :
    1 + sizeItems p.2.1 ≤ sizeElems els := by
  induction els with
  | nil => simp at h
  | cons hd tl ih =>
    rcases List.mem_cons.mp h with heq | hmem
    · rcases hd with ⟨t, its, raw⟩
      rw [heq]
      simp [sizeElems]
    · have := ih hmem
      rcases hd with ⟨t, its, raw⟩
      simp [sizeElems]
      omega

/-- A dataset nested inside an element of `ds` is strictly smaller than `ds`,
with room to spare: the dataset size bounds every recursion depth. -/
theorem size_lt_of_elem_item (ds : DataSet) (tag : String)
    (its : List (Option DataSet)) (raw : List Nat) (d : DataSet)
    (h1 : ds.elem tag = some (its, raw)) (h2 : some d ∈ its) :
    d.size + 3 ≤ ds.size := by
  cases ds with
  | mk s ints u16 fs fa els =>
    simp only [DataSet.elem] at h1
    rcases Option.map_eq_some'.mp h1 with ⟨p, hfind, hp2⟩
    rcases p with ⟨t, q⟩
    have hq : q = (its, raw) := hp2
    subst hq
    have hmem := List.mem_of_find?_eq_some hfind
    have h3 := sizeElems_le els (t, its, raw) hmem
    dsimp only at h3
    have h4 := sizeItems_le its d h2
    have hsz : DataSet.size (.mk s ints u16 fs fa els) = 1 + sizeElems els := rfl
    rw [hsz]
    omega

/-- The specification-side collector yields nothing on a dataset without a
content sequence, at every fuel. -/
theorem collectF_no_content (ds : DataSet) (h : ds.elem "x0040a730" = none) :
    ∀ fuel, specCollectIMAGELeavesF fuel ds = [] := by
  intro fuel
  cases fuel with
  | zero => rfl
  | succ fuel => simp [specCollectIMAGELeavesF, h]

/-- Length of the unpacked overlay buffer. -/
theorem unpack_length (packed : List Nat) (n : Nat) :
    (unpackOverlayBits packed n).length = n := by
  simp [unpackOverlayBits]

/-- Element access into the unpacked overlay buffer. -/
theorem unpack_getD (packed : List Nat) (n i : Nat) (h : i < n) :
    (unpackOverlayBits packed n).getD i 0 =
      if i / 8 < packed.length then (packed.getD (i / 8) 0 >>> (i % 8)) &&& 1 else 0 := by
  simp [unpackOverlayBits, List.getD_eq_getElem?_getD, List.getElem?_map,
    List.getElem?_range h]

/-- A byte below 256 is recovered from its eight low-order-first bits. -/
theorem byte_decomp : ∀ b : Nat, b < 256 →
    ((List.range 8).map fun k => ((b >>> k) &&& 1) * 2 ^ k).sum = b := by decide

/-- Length of the re-packed overlay buffer. -/
theorem pack_length (bits : List Nat) :
    (packOverlayBits bits).length = (bits.length + 7) / 8 := by
  simp [packOverlayBits]

/-- Element access into the re-packed overlay buffer. -/
theorem pack_getD (bits : List Nat) (j : Nat) (h : j < (bits.length + 7) / 8) :
    (packOverlayBits bits).getD j 0 =
      ((List.range 8).map fun k => bits.getD (8 * j + k) 0 * 2 ^ k).sum := by
  simp [packOverlayBits, List.getD_eq_getElem?_getD, List.getElem?_map,
    List.getElem?_range h]

/-- The structured-report content decoder only produces findings whose child
lists are absent or non-empty, at every node and every fuel. -/
theorem goodFinding_of_parse :
    ∀ (fuel : Nat) (ods : Option DataSet) (f : ReportFinding),
      parseContentItemF fuel ods = some f → GoodFinding f := by
  intro fuel
  induction fuel with
  | zero =>
    intro ods f h
    cases ods <;> simp [parseContentItemF] at h
  | succ fuel ih =>
    intro ods f h
    cases ods with
    | none => simp [parseContentItemF] at h
    | some ds =>
      simp only [parseContentItemF] at h
      by_cases hvt : strTruthy (ds.str "x0040a040")
      · simp only [hvt, Bool.not_true, Bool.false_eq_true, if_false, if_neg] at h
        rw [Option.some.injEq] at h
        subst h
        apply GoodFinding.intro
        · cases helem : ds.elem "x0040a730" with
          | none => simp [helem]
          | some pr =>
            rcases pr with ⟨items, raw⟩
            simp only [helem]
            by_cases hemp : (items.filterMap fun it => parseContentItemF fuel it).isEmpty
            · simp [hemp]
            · simp only [hemp, if_neg, Bool.false_eq_true, if_false, ne_eq,
                Option.some.injEq]
              intro hcontra
              rw [hcontra] at hemp
              simp at hemp
        · intro l hl c hc
          cases helem : ds.elem "x0040a730" with
          | none => rw [helem] at hl; simp at hl
          | some pr =>
            rcases pr with ⟨items, raw⟩
            rw [helem] at hl
            by_cases hemp : (items.filterMap fun it => parseContentItemF fuel it).isEmpty
            · simp [hemp] at hl
            · simp only [hemp, Bool.false_eq_true, if_false, Option.some.injEq] at hl
              subst hl
              rcases List.mem_filterMap.mp hc with ⟨a, _, ha2⟩
              exact ih a c ha2
      · simp [hvt] at h

/-- Inversion of a successful load: the study is assembled from the first
study metadata among the first ten files, the ingestion accumulators, the
organize step and the two sort passes. -/
theorem load_some_inv (files : List DicomFile) (study : DicomStudy)
    (h : loadDicomFromFolder files = some study) :
    ∃ sm, (files.take 10).findSome? parseStudyMetadata = some sm ∧
      study = { meta := sm
                series := sortSeriesPass
                  ((sortImagesPass (organizeImages (ingest files).seriesMap
                      (ingest files).images)).map (·.2))
                reports := (ingest files).reports
                keyObjectSelections := (ingest files).keyObjectSelections
                presentationStates := (ingest files).presentationStates } := by
  unfold loadDicomFromFolder at h
  dsimp only at h
  split at h
  · exact absurd h (by simp)
  · split at h
    · exact absurd h (by simp)
    · rename_i sm hfind
      split at h
      · exact absurd h (by simp)
      · rw [Option.some.injEq] at h
        exact ⟨sm, hfind, h.symm⟩

/-- Inversion of a key-object parse outcome of `parseDicomFile`. -/
theorem parseDicomFile_keyObject_inv (f : DicomFile) (k : KeyObjectSelection)
    (h : parseDicomFile f = some (.keyObject k)) :
    ∃ ds, f.parsed = some ds ∧ parseKO ds f.path = some k := by
  unfold parseDicomFile at h
  dsimp only at h
  split at h
  · exact absurd h (by simp)
  · split at h
    · exact absurd h (by simp)
    · rename_i ds hds
      refine ⟨ds, hds, ?_⟩
      split at h
      · rcases Option.map_eq_some'.mp h with ⟨x, _, hx⟩
        exact absurd hx (by simp)
      · split at h
        · rcases Option.map_eq_some'.mp h with ⟨x, hx1, hx2⟩
          rw [show x = k from by injection hx2] at hx1
          exact hx1
        · split at h
          · rcases Option.map_eq_some'.mp h with ⟨x, _, hx⟩
            exact absurd hx (by simp)
          · split at h
            · exact absurd h (by simp)
            · split at h
              · exact absurd h (by simp)
              · exact absurd h (by simp)

/-- Inversion of an image parse outcome of `parseDicomFile`: the dataset
exists, its series UID is truthy, and the image's series UID is that tag. -/
theorem parseDicomFile_image_inv (f : DicomFile) (img : DicomImage)
    (h : parseDicomFile f = some (.image img)) :
    ∃ ds, f.parsed = some ds ∧
      strTruthy (ds.str "x0020000e") = true ∧
      img.seriesInstanceUID = (ds.str "x0020000e").getD "" := by
  unfold parseDicomFile at h
  dsimp only at h
  split at h
  · exact absurd h (by simp)
  · split at h
    · exact absurd h (by simp)
    · rename_i ds hds
      refine ⟨ds, hds, ?_⟩
      split at h
      · rcases Option.map_eq_some'.mp h with ⟨x, _, hx⟩
        exact absurd hx (by simp)
      · split at h
        · rcases Option.map_eq_some'.mp h with ⟨x, _, hx⟩
          exact absurd hx (by simp)
        · split at h
          · rcases Option.map_eq_some'.mp h with ⟨x, _, hx⟩
            exact absurd hx (by simp)
          · split at h
            · exact absurd h (by simp)
            · split at h
              · exact absurd h (by simp)
              · rename_i htruthy
                rw [Option.some.injEq] at h
                have himg : img = _ := (ParseResult.image.inj h).symm
                refine ⟨?_, ?_⟩
                · cases hbx : strTruthy (ds.str "x0020000e") with
                  | true => rfl
                  | false => exact absurd (Or.inr (by rw [hbx]; rfl)) htruthy
                · rw [himg]

/-- The series metadata lazily read for an image file names the same series
as the image itself: both read the same tag of the same dataset. -/
theorem seriesMeta_matches_image (f : DicomFile) (img : DicomImage) (meta : SeriesMeta)
    (h1 : parseDicomFile f = some (.image img)) (h2 : parseSeriesMetadata f = some meta) :
    meta.seriesInstanceUID = img.seriesInstanceUID := by
  obtain ⟨ds, hds, htr, huid⟩ := parseDicomFile_image_inv f img h1
  unfold parseSeriesMetadata at h2
  rw [hds] at h2
  dsimp only at h2
  split at h2
  · exact absurd h2 (by simp)
  · rw [Option.some.injEq] at h2
    rw [← h2, huid]

/-- After ingestion, every series map entry names its key as its series
instance UID and holds an empty image list. -/
theorem ingest_seriesMap_inv (files : List DicomFile) :
    ∀ p ∈ (ingest files).seriesMap, p.2.seriesInstanceUID = p.1 ∧ p.2.images = [] := by
  unfold ingest
  refine @foldl_inv Accum DicomFile (fun acc => ∀ p ∈ acc.seriesMap,
    p.2.seriesInstanceUID = p.1 ∧ p.2.images = []) ingestStep files emptyAccum ?_ ?_
  · intro p hp
    simp [emptyAccum] at hp
  · intro acc f _ hP
    unfold ingestStep
    cases hf : parseDicomFile f with
    | none => exact hP
    | some r =>
      cases r with
      | report d => exact hP
      | keyObject d => exact hP
      | presentationState d => exact hP
      | image img =>
        dsimp only
        split
        · exact hP
        · cases hmeta : parseSeriesMetadata f with
          | none => exact hP
          | some meta =>
            dsimp only
            intro p hp
            rcases List.mem_append.mp hp with hold | hnew
            · exact hP p hold
            · rw [List.mem_singleton.mp hnew]
              refine ⟨?_, rfl⟩
              exact seriesMeta_matches_image f img meta hf hmeta

/-- When no image file of series `S` yields series metadata, `S` never enters
the series map during ingestion. -/
theorem ingest_seriesMap_noS (files : List DicomFile) (S : String)
    (HS : ∀ f ∈ files, ∀ img, parseDicomFile f = some (.image img) →
      img.seriesInstanceUID = S → parseSeriesMetadata f = none) :
    ∀ p ∈ (ingest files).seriesMap, p.1 ≠ S := by
  unfold ingest
  refine @foldl_inv Accum DicomFile (fun acc => ∀ p ∈ acc.seriesMap, p.1 ≠ S)
    ingestStep files emptyAccum ?_ ?_
  · intro p hp
    simp [emptyAccum] at hp
  · intro acc f hfmem hP
    unfold ingestStep
    cases hf : parseDicomFile f with
    | none => exact hP
    | some r =>
      cases r with
      | report d => exact hP
      | keyObject d => exact hP
      | presentationState d => exact hP
      | image img =>
        dsimp only
        split
        · exact hP
        · cases hmeta : parseSeriesMetadata f with
          | none => exact hP
          | some meta =>
            dsimp only
            intro p hp
            rcases List.mem_append.mp hp with hold | hnew
            · exact hP p hold
            · rw [List.mem_singleton.mp hnew]
              intro hS
              exact absurd hmeta (by rw [HS f hfmem img hf hS]; simp)

/-- The organize step preserves the series map invariant: entries name their
key and hold only images of that series. -/
theorem organize_inv (m : List (String × DicomSeries)) (imgs : List DicomImage)
    (h : ∀ p ∈ m, p.2.seriesInstanceUID = p.1 ∧ ∀ i ∈ p.2.images, i.seriesInstanceUID = p.1) :
    ∀ p ∈ organizeImages m imgs,
      p.2.seriesInstanceUID = p.1 ∧ ∀ i ∈ p.2.images, i.seriesInstanceUID = p.1 := by
  unfold organizeImages
  refine @foldl_inv (List (String × DicomSeries)) DicomImage (fun m => ∀ p ∈ m,
    p.2.seriesInstanceUID = p.1 ∧ ∀ i ∈ p.2.images, i.seriesInstanceUID = p.1)
    _ imgs m h ?_
  intro acc img _ hP p hp
  rcases List.mem_map.mp hp with ⟨q, hq, hpq⟩
  by_cases hkey : q.1 == img.seriesInstanceUID
  · rw [if_pos hkey] at hpq
    have hQ := hP q hq
    rw [← hpq]
    refine ⟨hQ.1, ?_⟩
    intro i hi
    dsimp only at hi
    rcases List.mem_append.mp hi with hiold | hinew
    · exact hQ.2 i hiold
    · rw [List.mem_singleton.mp hinew]
      exact (beq_iff_eq.mp hkey).symm
  · rw [if_neg hkey] at hpq
    rw [← hpq]
    exact hP q hq

/-- The organize step leaves the key set of the series map unchanged. -/
theorem organize_keys (m : List (String × DicomSeries)) (imgs : List DicomImage) (S : String)
    (h : ∀ p ∈ m, p.1 ≠ S) : ∀ p ∈ organizeImages m imgs, p.1 ≠ S := by
  unfold organizeImages
  refine @foldl_inv (List (String × DicomSeries)) DicomImage (fun m => ∀ p ∈ m, p.1 ≠ S)
    _ imgs m h ?_
  intro acc img _ hP p hp
  rcases List.mem_map.mp hp with ⟨q, hq, hpq⟩
  by_cases hkey : q.1 == img.seriesInstanceUID
  · rw [if_pos hkey] at hpq
    rw [← hpq]
    exact hP q hq
  · rw [if_neg hkey] at hpq
    rw [← hpq]
    exact hP q hq

/-- Membership in the sorted series list coincides with membership before the
sort (the sort is a permutation). -/
theorem mem_sortSeriesPass (l : List DicomSeries) (ser : DicomSeries) :
    ser ∈ sortSeriesPass l ↔ ser ∈ l := by
  unfold sortSeriesPass
  exact (List.perm_insertionSort _ l).mem_iff

/-- A decoded key object selection always holds at least one image
reference. -/
theorem parseKO_nonempty (ds : DataSet) (path : String) (ko : KeyObjectSelection)
    (h : parseKO ds path = some ko) : ko.keyImages ≠ [] := by
  unfold parseKO at h
  dsimp only at h
  split at h
  · exact absurd h (by simp)
  · split at h
    · exact absurd h (by simp)
    · rename_i hne
      rw [Option.some.injEq] at h
      rw [← h]
      dsimp only
      intro hcontra
      rw [hcontra] at hne
      simp at hne

/-- Every key object selection accumulated by ingestion has a non-empty image
reference list. -/
theorem ingest_ko_nonempty (files : List DicomFile) :
    ∀ ko ∈ (ingest files).keyObjectSelections, ko.keyImages ≠ [] := by
  unfold ingest
  refine @foldl_inv Accum DicomFile
    (fun acc => ∀ ko ∈ acc.keyObjectSelections, ko.keyImages ≠ [])
    ingestStep files emptyAccum ?_ ?_
  · intro ko hko
    simp [emptyAccum] at hko
  · intro acc f _ hP
    unfold ingestStep
    cases hf : parseDicomFile f with
    | none => exact hP
    | some r =>
      cases r with
      | report d => exact hP
      | presentationState d => exact hP
      | image img =>
        dsimp only
        split
        · exact hP
        · cases hmeta : parseSeriesMetadata f with
          | none => exact hP
          | some meta => exact hP
      | keyObject k =>
        dsimp only
        intro ko hko
        rcases List.mem_append.mp hko with hold | hnew
        · exact hP ko hold
        · rw [List.mem_singleton.mp hnew]
          obtain ⟨ds, _, hparse⟩ := parseDicomFile_keyObject_inv f k hf
          exact parseKO_nonempty ds f.path k hparse

/-! ## Claims -/

/-- C1: after assembly completes, the returned study's series list is sorted
non-decreasing by series number, and within every series the images list is
sorted non-decreasing by instance number, both established by the terminal
sort passes run after all files are ingested. -/
theorem loadDicomFromFolder_sorted (files : List DicomFile) (study : DicomStudy)
    (h : loadDicomFromFolder files = some study) :
    List.Sorted (fun a b : DicomSeries => a.seriesNumber ≤ b.seriesNumber) study.series ∧
    ∀ ser ∈ study.series,
      List.Sorted (fun a b : DicomImage => a.instanceNumber ≤ b.instanceNumber) ser.images := by
  obtain ⟨sm, hfind, hstudy⟩ := load_some_inv files study h
  subst hstudy
  dsimp only
  constructor
  · exact List.sorted_insertionSort _ _
  · intro ser hser
    rw [mem_sortSeriesPass] at hser
    rcases List.mem_map.mp hser with ⟨e, he, hser2⟩
    unfold sortImagesPass at he
    rcases List.mem_map.mp he with ⟨e0, _, he2⟩
    rw [← hser2, ← he2]
    exact List.sorted_insertionSort _ _

/-- C1 witness: a concrete one-file load is assembled with sorted series and
sorted images. -/
theorem loadDicomFromFolder_sorted_witness :
    List.Sorted (fun a b : DicomSeries => a.seriesNumber ≤ b.seriesNumber)
      ((loadDicomFromFolder [imageFile1]).getD emptyStudy).series ∧
    ∀ ser ∈ ((loadDicomFromFolder [imageFile1]).getD emptyStudy).series,
      List.Sorted (fun a b : DicomImage => a.instanceNumber ≤ b.instanceNumber) ser.images :=
  loadDicomFromFolder_sorted [imageFile1]
    ((loadDicomFromFolder [imageFile1]).getD emptyStudy) rfl

/-- C2: a per-file failure (decode exception, size limit exceeded, missing
required identifier) makes `parseDicomFile` return `none` for that file, and
a file whose parse is `none` contributes nothing: the ingestion accumulators
over any file list containing it equal those over the list without it. -/
theorem perFileFailure_isolated (f : DicomFile) :
    (f.parsed = none → parseDicomFile f = none) ∧
    (maxFileSize < f.byteLength → parseDicomFile f = none) ∧
    (∀ ds, f.parsed = some ds → isSRFile ds = false → isKOFile ds = false →
      isPRFile ds = false →
      (strTruthy (ds.str "x00080018") = false ∨ strTruthy (ds.str "x0020000e") = false) →
      parseDicomFile f = none) ∧
    (parseDicomFile f = none →
      ∀ pre post, ingest (pre ++ f :: post) = ingest (pre ++ post)) := by
  refine ⟨?_, ?_, ?_, ?_⟩
  · intro hp
    unfold parseDicomFile
    rw [hp]
    split <;> rfl
  · intro hsize
    unfold parseDicomFile
    rw [if_pos hsize]
  · intro ds hp hsr hko hpr htruthy
    unfold parseDicomFile
    rw [hp]
    dsimp only
    split
    · rfl
    · simp only [hsr, hko, hpr, Bool.false_eq_true, if_false]
      cases helem : ds.elem "x7fe00010" with
      | none => rfl
      | some e =>
        dsimp only
        rcases htruthy with h1 | h1 <;> rw [h1] <;> simp
  · intro hfail pre post
    unfold ingest
    rw [List.foldl_append, List.foldl_append, List.foldl_cons]
    have : ingestStep (List.foldl ingestStep emptyAccum pre) f =
        List.foldl ingestStep emptyAccum pre := by
      unfold ingestStep
      rw [hfail]
    rw [this]

/-- C2 witness: a concrete undecodable file is skipped and the accumulators
of a load set containing it equal those without it. -/
theorem perFileFailure_isolated_witness :
    parseDicomFile badFile = none ∧
    ingest ([imageFile1] ++ badFile :: [koFile1]) = ingest ([imageFile1] ++ [koFile1]) :=
  ⟨(perFileFailure_isolated badFile).1 rfl,
   (perFileFailure_isolated badFile).2.2.2 ((perFileFailure_isolated badFile).1 rfl)
     [imageFile1] [koFile1]⟩

/-- C3: the unpack function returns exactly n output bytes; output byte i is
bit (i mod 8) of packed byte (i div 8); any index whose byte index reaches
the packed length unpacks to 0 without reading past the buffer; and rows 2,
columns 4 with packed byte 0b00001011 unpacks to [1,1,0,1,0,0,0,0], also
through the overlay decoder. -/
theorem unpackOverlayBits_indexing (packed : List Nat) (n : Nat) :
    (unpackOverlayBits packed n).length = n ∧
    (∀ i, i < n →
      (unpackOverlayBits packed n).getD i 0 =
        if i / 8 < packed.length then (packed.getD (i / 8) 0 >>> (i % 8)) &&& 1 else 0) ∧
    (∀ i, i < n → packed.length ≤ i / 8 → (unpackOverlayBits packed n).getD i 0 = 0) ∧
    unpackOverlayBits [11] (2 * 4) = [1, 1, 0, 1, 0, 0, 0, 0] ∧
    parseOverlays overlayDS =
      [⟨0x6000, 2, 4, "G", (1, 1), 1, [1, 1, 0, 1, 0, 0, 0, 0], none, none⟩] := by
  refine ⟨unpack_length packed n, fun i hi => unpack_getD packed n i hi,
    fun i hi hbeyond => ?_, by decide, by decide⟩
  rw [unpack_getD packed n i hi, if_neg (by omega)]

/-- C3 witness: the indexing equations evaluated at concrete indices, one
inside and one beyond the packed buffer. -/
theorem unpackOverlayBits_indexing_witness :
    ((unpackOverlayBits [11] 8).getD 3 0 =
      if 3 / 8 < ([11] : List Nat).length then
        ((([11] : List Nat).getD (3 / 8) 0) >>> (3 % 8)) &&& 1
      else 0) ∧
    (unpackOverlayBits [11] 10).getD 9 0 = 0 :=
  ⟨(unpackOverlayBits_indexing [11] 8).2.1 3 (by decide),
   (unpackOverlayBits_indexing [11] 10).2.2.1 9 (by decide) (by decide)⟩

/-- C4 counterexample: a key object selection whose only IMAGE item sits at
depth three of the content tree.  The specification-side any-depth collector
finds its reference, but the source's resolver scans only the top level and
one level of nesting, finds nothing, and discards the whole object. -/
theorem koReferencedImages_depth3_missed :
    specCollectIMAGELeaves c4DeepKO = ["DEEP1"] ∧
    KO.parseReferencedImages c4DeepKO = [] ∧
    parseKO c4DeepKO "/load/deep.dcm" = none := by decide

/-- C4 amended: the reference resolver collects IMAGE-typed items from the
top-level content sequence and from one level of nesting, in encounter
order; on key-object datasets whose content nests at most two levels this
equals the any-depth leaf collection, but deeper IMAGE items contribute
nothing. -/
theorem koReferencedImages_twoLevels (ds : DataSet) (h : nestingAtMostTwo ds = true) :
    KO.parseReferencedImages ds = specCollectIMAGELeaves ds := by
  unfold specCollectIMAGELeaves
  obtain ⟨m, hm⟩ : ∃ m, ds.size = m + 1 := by
    cases ds with
    | mk a b c dd e f => exact ⟨sizeElems f, by simp [DataSet.size, Nat.add_comm]⟩
  rw [hm]
  unfold KO.parseReferencedImages specCollectIMAGELeavesF
  cases helem : ds.elem "x0040a730" with
  | none => simp
  | some pr =>
    rcases pr with ⟨items, raw⟩
    simp only [nestingAtMostTwo, helem, List.all_eq_true] at h
    apply flatMap_congr_mem
    intro it hit
    cases it with
    | none => rfl
    | some itemDS =>
      dsimp only
      have hsz := size_lt_of_elem_item ds "x0040a730" items raw itemDS helem hit
      obtain ⟨m2, hm2⟩ : ∃ m2, m = m2 + 1 := ⟨m - 1, by omega⟩
      congr 1
      rw [hm2]
      unfold specCollectIMAGELeavesF
      have hnest := h (some itemDS) hit
      cases helem2 : itemDS.elem "x0040a730" with
      | none => simp
      | some pr2 =>
        rcases pr2 with ⟨nested, raw2⟩
        simp only [helem2, List.all_eq_true] at hnest
        apply flatMap_congr_mem
        intro nit hnit
        cases nit with
        | none => rfl
        | some nestedDS =>
          dsimp only
          have hno := hnest (some nestedDS) hnit
          simp only [Option.isNone_iff_eq_none] at hno
          rw [collectF_no_content nestedDS hno m2]
          simp

/-- C4 witness: on a concrete dataset whose IMAGE reference sits one level
deep the resolver and the any-depth collection agree. -/
theorem koReferencedImages_twoLevels_witness :
    nestingAtMostTwo c4TwoLevelDS = true ∧
    KO.parseReferencedImages c4TwoLevelDS = specCollectIMAGELeaves c4TwoLevelDS :=
  ⟨by decide, koReferencedImages_twoLevels c4TwoLevelDS (by decide)⟩

/-- C5: every decoded structured-report content item has a children field
that is absent or non-empty, never an empty list, recursively at every node;
an item whose nested sequence yields zero surviving children has its
children cleared to absent, and the same holds for every finding of a parsed
report. -/
theorem parseContentItem_children_never_empty :
    (∀ (fuel : Nat) (ods : Option DataSet) (f : ReportFinding),
      parseContentItemF fuel ods = some f → GoodFinding f) ∧
    (∀ (ods : Option DataSet) (f : ReportFinding),
      parseContentItem ods = some f → GoodFinding f) ∧
    (∀ (ds : DataSet) (path : String) (rep : DicomReport),
      parseSR ds path = some rep → ∀ f ∈ rep.findings, GoodFinding f) := by
  refine ⟨goodFinding_of_parse, fun ods f h => goodFinding_of_parse _ ods f h,
    fun ds path rep h f hf => ?_⟩
  have hfind : rep.findings = parseContentSequence ds := by
    simp only [parseSR] at h
    split at h
    · exact absurd h (by simp)
    · rw [Option.some.injEq] at h
      rw [← h]
  rw [hfind] at hf
  simp only [parseContentSequence] at hf
  cases helem : ds.elem "x0040a730" with
  | none => rw [helem] at hf; simp at hf
  | some pr =>
    rcases pr with ⟨items, raw⟩
    rw [helem] at hf
    rcases List.mem_filterMap.mp hf with ⟨a, _, ha2⟩
    exact goodFinding_of_parse ds.size a f ha2

/-- C5 witness: a concrete CONTAINER item whose only child fails to decode
comes out with absent children, and its decode satisfies the invariant. -/
theorem parseContentItem_children_never_empty_witness :
    parseContentItem (some c5Container) =
      some (ReportFinding.mk "Finding" "Container" "CONTAINER" none none none) ∧
    GoodFinding ((parseContentItem (some c5Container)).getD emptyFinding) :=
  ⟨by rfl,
   parseContentItem_children_never_empty.2.1 (some c5Container)
     ((parseContentItem (some c5Container)).getD emptyFinding) (by rfl)⟩

/-- C6: the assembler examines at most the first ten files for a study
identifier: if none of those ten yields study metadata the load returns the
empty outcome even when a later file carries one, and on success the study's
metadata equals the first parseable study metadata among those ten files,
never merged from any other file. -/
theorem studyHeader_first_ten (files : List DicomFile) :
    ((∀ f ∈ files.take 10, parseStudyMetadata f = none) →
      loadDicomFromFolder files = none) ∧
    (∀ sm study, (files.take 10).findSome? parseStudyMetadata = some sm →
      loadDicomFromFolder files = some study → study.meta = sm) := by
  constructor
  · intro hnone
    unfold loadDicomFromFolder
    dsimp only
    split
    · rfl
    · rw [List.findSome?_eq_none_iff.mpr hnone]
  · intro sm study hfind h
    obtain ⟨sm2, hfind2, hstudy⟩ := load_some_inv files study h
    rw [hfind] at hfind2
    rw [hstudy]
    exact (Option.some.injEq sm2 sm).mp hfind2.symm |>.symm ▸ rfl

/-- C6 witness: ten failing files followed by a loadable one produce the
empty outcome, and a concrete successful load carries the first file's study
metadata. -/
theorem studyHeader_first_ten_witness :
    loadDicomFromFolder (List.replicate 10 badFile ++ [imageFile1]) = none ∧
    ((loadDicomFromFolder [imageFile1]).getD emptyStudy).meta =
      (([imageFile1].take 10).findSome? parseStudyMetadata).getD emptyStudyMeta :=
  ⟨(studyHeader_first_ten (List.replicate 10 badFile ++ [imageFile1])).1 (by decide),
   (studyHeader_first_ten [imageFile1]).2
     ((([imageFile1].take 10).findSome? parseStudyMetadata).getD emptyStudyMeta)
     ((loadDicomFromFolder [imageFile1]).getD emptyStudy) rfl rfl⟩

/-- C7: a key object selection whose decoded image reference list is empty is
discarded entirely, so every key object selection of an assembled study has
a non-empty keyImages list. -/
theorem keyObjectSelection_nonempty :
    (∀ (ds : DataSet) (path : String) (ko : KeyObjectSelection),
      parseKO ds path = some ko → ko.keyImages ≠ []) ∧
    (∀ (files : List DicomFile) (study : DicomStudy),
      loadDicomFromFolder files = some study →
      ∀ ko ∈ study.keyObjectSelections, ko.keyImages ≠ []) := by
  refine ⟨parseKO_nonempty, fun files study h ko hko => ?_⟩
  obtain ⟨sm, _, hstudy⟩ := load_some_inv files study h
  rw [hstudy] at hko
  exact ingest_ko_nonempty files ko hko

/-- C7 witness: the key object selection of a concrete load has a non-empty
image reference list. -/
theorem keyObjectSelection_nonempty_witness :
    (((loadDicomFromFolder [imageFile1, koFile1]).getD
        emptyStudy).keyObjectSelections.getD 0 emptyKO).keyImages ≠ [] :=
  keyObjectSelection_nonempty.2 [imageFile1, koFile1]
    ((loadDicomFromFolder [imageFile1, koFile1]).getD emptyStudy) rfl
    ((((loadDicomFromFolder [imageFile1, koFile1]).getD
        emptyStudy).keyObjectSelections.getD 0 emptyKO)) (by decide)

/-- C10: the series metadata reader rejects a file lacking either the series
or the study instance UID; when no image file of a series yields series
metadata, the assembled study contains neither that series nor any of its
images; and every image of the output sits in a series entry whose series
instance UID equals the image's own. -/
theorem seriesDrop_and_uid_match :
    (∀ (f : DicomFile) (ds : DataSet), f.parsed = some ds →
      (strTruthy (ds.str "x0020000e") = false ∨ strTruthy (ds.str "x0020000d") = false) →
      parseSeriesMetadata f = none) ∧
    (∀ (files : List DicomFile) (S : String) (study : DicomStudy),
      (∀ f ∈ files, ∀ img : DicomImage, parseDicomFile f = some (.image img) →
        img.seriesInstanceUID = S → parseSeriesMetadata f = none) →
      loadDicomFromFolder files = some study →
      (∀ ser ∈ study.series, ser.seriesInstanceUID ≠ S) ∧
      (∀ ser ∈ study.series, ∀ img ∈ ser.images, img.seriesInstanceUID ≠ S)) ∧
    (∀ (files : List DicomFile) (study : DicomStudy),
      loadDicomFromFolder files = some study →
      ∀ ser ∈ study.series, ∀ img ∈ ser.images,
        img.seriesInstanceUID = ser.seriesInstanceUID) := by
  refine ⟨?_, ?_, ?_⟩
  · intro f ds hp htruthy
    unfold parseSeriesMetadata
    rw [hp]
    dsimp only
    rcases htruthy with h1 | h1 <;> rw [h1] <;> simp
  · intro files S study HS h
    obtain ⟨sm, _, hstudy⟩ := load_some_inv files study h
    have hkeys := organize_keys (ingest files).seriesMap (ingest files).images S
      (fun p hp => ingest_seriesMap_noS files S HS p hp)
    have hinv := organize_inv (ingest files).seriesMap (ingest files).images
      (fun p hp => ⟨(ingest_seriesMap_inv files p hp).1, by
        rw [(ingest_seriesMap_inv files p hp).2]; intro i hi; simp at hi⟩)
    have hser : ∀ ser ∈ study.series, ∃ p ∈ organizeImages (ingest files).seriesMap
        (ingest files).images, ser.seriesInstanceUID = p.1 ∧
        ∀ i ∈ ser.images, i ∈ p.2.images := by
      intro ser hser
      rw [hstudy] at hser
      dsimp only at hser
      rw [mem_sortSeriesPass] at hser
      rcases List.mem_map.mp hser with ⟨e, he, hser2⟩
      unfold sortImagesPass at he
      rcases List.mem_map.mp he with ⟨e0, he0, he2⟩
      refine ⟨e0, he0, ?_, ?_⟩
      · rw [← hser2, ← he2]
        dsimp only
        exact (hinv e0 he0).1
      · intro i hi
        rw [← hser2, ← he2] at hi
        dsimp only at hi
        rw [(List.perm_insertionSort _ _).mem_iff] at hi
        exact hi
    constructor
    · intro ser hs
      obtain ⟨p, hpmem, hpuid, _⟩ := hser ser hs
      rw [hpuid]
      exact hkeys p hpmem
    · intro ser hs img himg
      obtain ⟨p, hpmem, hpuid, himgs⟩ := hser ser hs
      have := (hinv p hpmem).2 img (himgs img himg)
      rw [this]
      exact hkeys p hpmem
  · intro files study h ser hs img himg
    obtain ⟨sm, _, hstudy⟩ := load_some_inv files study h
    have hinv := organize_inv (ingest files).seriesMap (ingest files).images
      (fun p hp => ⟨(ingest_seriesMap_inv files p hp).1, by
        rw [(ingest_seriesMap_inv files p hp).2]; intro i hi; simp at hi⟩)
    rw [hstudy] at hs
    dsimp only at hs
    rw [mem_sortSeriesPass] at hs
    rcases List.mem_map.mp hs with ⟨e, he, hser2⟩
    unfold sortImagesPass at he
    rcases List.mem_map.mp he with ⟨e0, he0, he2⟩
    have huid : ser.seriesInstanceUID = e0.1 := by
      rw [← hser2, ← he2]
      exact (hinv e0 he0).1
    have himgmem : img ∈ e0.2.images := by
      rw [← hser2, ← he2] at himg
      dsimp only at himg
      rw [(List.perm_insertionSort _ _).mem_iff] at himg
      exact himg
    rw [huid]
    exact (hinv e0 he0).2 img himgmem

/-- C10 witness: in a concrete load, the image of the first series carries
the series entry's own series instance UID. -/
theorem seriesDrop_and_uid_match_witness :
    ((((loadDicomFromFolder [imageFile1]).getD emptyStudy).series.getD 0
        emptySeries).images.getD 0 emptyImage).seriesInstanceUID =
      (((loadDicomFromFolder [imageFile1]).getD emptyStudy).series.getD 0
        emptySeries).seriesInstanceUID :=
  seriesDrop_and_uid_match.2.2 [imageFile1]
    ((loadDicomFromFolder [imageFile1]).getD emptyStudy) rfl
    (((loadDicomFromFolder [imageFile1]).getD emptyStudy).series.getD 0 emptySeries)
    (by decide)
    ((((loadDicomFromFolder [imageFile1]).getD emptyStudy).series.getD 0
        emptySeries).images.getD 0 emptyImage)
    (by decide)

/-- C8: a CIRCLE annotation's four decoded numbers are center x, center y,
edge x, edge y, and the reconstructed radius is the Euclidean distance
between center and edge; in particular the decoder turns a concrete CIRCLE
graphic object into graphic data [10,10,13,10], which reconstructs to center
(10,10) and radius 3. -/
theorem circleShape_euclidean :
    (∀ g : List Rat, 4 ≤ g.length →
      circleShape g = some ⟨g.getD 0 0, g.getD 1 0,
        dist (show EuclideanSpace ℝ (Fin 2) from ![(g.getD 0 0 : ℝ), (g.getD 1 0 : ℝ)])
             (show EuclideanSpace ℝ (Fin 2) from ![(g.getD 2 0 : ℝ), (g.getD 3 0 : ℝ)])⟩) ∧
    parseGraphicObject circleObjDS = some ⟨"CIRCLE", [10, 10, 13, 10], none⟩ ∧
    circleShape [10, 10, 13, 10] = some ⟨10, 10, 3⟩ := by
  refine ⟨fun g h => ?_, by decide, ?_⟩
  · simp only [circleShape, if_neg (by omega : ¬g.length < 4)]
    refine congrArg some (congrArg (CircleShape.mk _ _) ?_)
    rw [EuclideanSpace.dist_eq]
    congr 1
    rw [Fin.sum_univ_two]
    simp only [Matrix.cons_val_zero, Matrix.cons_val_one, Matrix.head_cons, Real.dist_eq,
      sq_abs]
    ring
  · simp only [circleShape]
    norm_num
    rw [show (9:ℝ) = 3 ^ 2 by norm_num, Real.sqrt_sq (by norm_num : (0:ℝ) ≤ 3)]

/-- C8 witness: the reconstruction applied to the concrete graphic data
[10,10,13,10]. -/
theorem circleShape_euclidean_witness :
    circleShape [10, 10, 13, 10] =
      some ⟨([10, 10, 13, 10] : List Rat).getD 0 0, ([10, 10, 13, 10] : List Rat).getD 1 0,
        dist (show EuclideanSpace ℝ (Fin 2) from
                ![(([10, 10, 13, 10] : List Rat).getD 0 0 : ℝ),
                  (([10, 10, 13, 10] : List Rat).getD 1 0 : ℝ)])
             (show EuclideanSpace ℝ (Fin 2) from
                ![(([10, 10, 13, 10] : List Rat).getD 2 0 : ℝ),
                  (([10, 10, 13, 10] : List Rat).getD 3 0 : ℝ)])⟩ :=
  circleShape_euclidean.1 [10, 10, 13, 10] (by norm_num)

/-- C9 counterexample: for the one-byte buffer [128] and pixel count 1 (so N
is at most 8L), unpack-then-repack yields [0], not the original one-byte
prefix [128]: the round trip as claimed fails when N is not a multiple of
eight covering the buffer. -/
theorem overlayRoundTrip_counterexample :
    (1 : Nat) ≤ 8 * ([128] : List Nat).length ∧
    packOverlayBits (unpackOverlayBits [128] 1) = [0] ∧
    packOverlayBits (unpackOverlayBits [128] 1) ≠ [128] := by decide

/-- C9 amended: for any byte buffer and any pixel count N at most 8L,
unpacking then re-packing N bits reproduces the first N/8 (rounded down)
bytes of the buffer; in particular when N equals 8L it reproduces the whole
buffer. -/
theorem overlayRoundTrip (packed : List Nat) (N : Nat)
    (hb : ∀ b ∈ packed, b < 256) (hN : N ≤ 8 * packed.length) :
    (packOverlayBits (unpackOverlayBits packed N)).take (N / 8) =
      packed.take (N / 8) ∧
    (N = 8 * packed.length →
      packOverlayBits (unpackOverlayBits packed N) = packed) := by
  have hdivL : N / 8 ≤ packed.length := by
    calc N / 8 ≤ 8 * packed.length / 8 := Nat.div_le_div_right hN
    _ = packed.length := by omega
  have hlenpack : (packOverlayBits (unpackOverlayBits packed N)).length = (N + 7) / 8 := by
    rw [pack_length, unpack_length]
  have hdivpack : N / 8 ≤ (N + 7) / 8 := Nat.div_le_div_right (by omega)
  have key : ∀ j, j < N / 8 →
      (packOverlayBits (unpackOverlayBits packed N)).getD j 0 = packed.getD j 0 := by
    intro j hj
    have h8j : 8 * j + 8 ≤ N := by
      have h1 : j + 1 ≤ N / 8 := hj
      have h2 := Nat.mul_le_mul_left 8 h1
      have h3 : 8 * (N / 8) ≤ N := Nat.mul_div_le N 8
      omega
    rw [pack_getD _ _ (by rw [unpack_length]; omega)]
    have helem : ∀ k, k < 8 →
        ((unpackOverlayBits packed N).getD (8 * j + k) 0) =
          (packed.getD j 0 >>> k) &&& 1 := by
      intro k hk
      rw [unpack_getD _ _ _ (by omega)]
      have hdiv : (8 * j + k) / 8 = j := by
        rw [Nat.mul_add_div (by omega)]
        omega
      have hmod : (8 * j + k) % 8 = k := by
        rw [Nat.mul_add_mod]
        omega
      rw [hdiv, hmod, if_pos (by omega)]
    have hrw : ((List.range 8).map fun k =>
          (unpackOverlayBits packed N).getD (8 * j + k) 0 * 2 ^ k) =
        ((List.range 8).map fun k => ((packed.getD j 0 >>> k) &&& 1) * 2 ^ k) := by
      apply List.map_congr_left
      intro k hk
      rw [helem k (List.mem_range.mp hk)]
    rw [hrw, byte_decomp _ (hb _ (by
      rw [List.getD_eq_getElem _ _ (by omega)]
      exact List.getElem_mem _))]
  have htake : (packOverlayBits (unpackOverlayBits packed N)).take (N / 8) =
      packed.take (N / 8) := by
    apply List.ext_getElem
    · simp [List.length_take, hlenpack]
      omega
    · intro i h1 h2
      rw [List.getElem_take, List.getElem_take]
      rw [← List.getD_eq_getElem _ 0, ← List.getD_eq_getElem _ 0]
      apply key
      simp [List.length_take] at h1
      omega
  refine ⟨htake, fun hfull => ?_⟩
  have hL8 : N / 8 = packed.length := by omega
  have hlen : (packOverlayBits (unpackOverlayBits packed N)).length = packed.length := by
    rw [hlenpack]; omega
  calc packOverlayBits (unpackOverlayBits packed N)
      = (packOverlayBits (unpackOverlayBits packed N)).take (N / 8) := by
        rw [hL8, ← hlen, List.take_length]
    _ = packed.take (N / 8) := htake
    _ = packed := by rw [hL8, List.take_length]

/-- C9 witness: the amended round trip evaluated on a concrete two-byte
buffer with all sixteen bits unpacked. -/
theorem overlayRoundTrip_witness :
    (packOverlayBits (unpackOverlayBits [171, 5] 16)).take (16 / 8) =
      ([171, 5] : List Nat).take (16 / 8) ∧
    (16 = 8 * ([171, 5] : List Nat).length →
      packOverlayBits (unpackOverlayBits [171, 5] 16) = [171, 5]) :=
  overlayRoundTrip [171, 5] 16 (by decide) (by decide)

end MriReader
